import Mathlib

/-!
Verification of the Correctly input-surveillance and correction engine
(`src/content/content.js`), shallowly embedded in Lean.

The embedding covers:
* the text primitives used by the diff applier — JavaScript
  `String.prototype.replace` with a string pattern and a string
  replacement, including the `$`-escape expansion ECMA-262 performs on
  the replacement (`GetSubstitution` with zero capture groups);
* the eligibility classifier `shouldCheckElement` with its
  attribute-inheritance walk `getInheritedAttr`;
* the tooltip placement geometry `positionTooltip`;
* the debounce/check session state machine (`handleInput`,
  `handleFocusOut`, the debounce timer, and the entry conditions of
  `checkGrammar`) as a step function over event traces;
* the indicator lifecycle of `checkGrammar` as a UI-action trace;
* the diff applier `acceptSingleCorrection` / `acceptCorrections`.
-/

namespace Correctly

/-! ### Text primitives -/

/-- Whitespace recognised by JavaScript `String.prototype.trim`
(the ASCII whitespace characters plus NBSP; other exotic Unicode space
code points never arise in the properties below). -/
def isJsWhitespace (c : Char) : Bool :=
  c = ' ' || c = Char.ofNat 9 || c = Char.ofNat 10 || c = Char.ofNat 11 ||
  c = Char.ofNat 12 || c = Char.ofNat 13 || c = Char.ofNat 160

/-- JavaScript `text.trim()` on a character list. -/
def jsTrim (s : List Char) : List Char :=
  ((s.dropWhile isJsWhitespace).reverse.dropWhile isJsWhitespace).reverse

/-- Whether `pat` matches at the front of `s`. -/
def matchPre : List Char → List Char → Bool
  | [], _ => true
  | _ :: _, [] => false
  | p :: ps, c :: cs => p = c && matchPre ps cs

/-- Index of the first occurrence of `pat` in `s`, as JavaScript string
search finds it (an empty pattern matches at index 0). -/
def firstMatch (pat : List Char) : List Char → Option Nat
  | [] => if matchPre pat [] then some 0 else none
  | c :: rest =>
    if matchPre pat (c :: rest) then some 0
    else (firstMatch pat rest).map (fun i => i + 1)

/-- Pattern `pat` occurs in `s` at index `i`. -/
def OccursAt (pat s : List Char) (i : Nat) : Prop :=
  matchPre pat (s.drop i) = true

instance (pat s : List Char) (i : Nat) : Decidable (OccursAt pat s i) := by
  unfold OccursAt; infer_instance

/-- The ECMA-262 `GetSubstitution` operation for a string pattern (zero capture
groups): in the replacement, `$$` is a literal dollar, `$&` is the
matched fragment, a dollar before a backquote is the part of the string
before the match, a dollar before an apostrophe is the part after the
match, and any other character sequence is copied verbatim. -/
def getSubstitution (matched before after : List Char) : List Char → List Char
  | [] => []
  | [c] => [c]
  | c :: d :: rest =>
    if c = '$' then
      if d = '$' then '$' :: getSubstitution matched before after rest
      else if d = '&' then matched ++ getSubstitution matched before after rest
      else if d = Char.ofNat 96 then before ++ getSubstitution matched before after rest
      else if d = Char.ofNat 39 then after ++ getSubstitution matched before after rest
      else c :: getSubstitution matched before after (d :: rest)
    else c :: getSubstitution matched before after (d :: rest)

/-- JavaScript `s.replace(pat, repl)` with string arguments: substitute
the first occurrence of `pat` (if any) by the `GetSubstitution`
expansion of `repl`. This is the primitive `acceptSingleCorrection`
(line 374) and `acceptCorrections` (line 400) apply to the live text. -/
def jsReplace (s pat repl : List Char) : List Char :=
  match firstMatch pat s with
  | none => s
  | some i =>
    s.take i ++ getSubstitution pat (s.take i) (s.drop (i + pat.length)) repl
      ++ s.drop (i + pat.length)

/-! ### Eligibility classifier (`shouldCheckElement`, lines 77–146) -/

/-- ASCII lowercasing of one character (the fragment of JavaScript
`toLowerCase()` relevant to the ASCII attribute values the classifier
compares against). -/
def asciiLowerChar (c : Char) : Char :=
  if 65 ≤ c.toNat ∧ c.toNat ≤ 90 then Char.ofNat (c.toNat + 32) else c

/-- JavaScript `s.toLowerCase()` on the ASCII range. -/
def jsToLower (s : String) : String := ⟨s.data.map asciiLowerChar⟩

/-- The `{ check, reason }` record `shouldCheckElement` returns. -/
structure Decision where
  check : Bool
  reason : String
deriving DecidableEq, Repr

/-- Set `PROSE_INPUT_TYPES` (line 45). -/
def PROSE_INPUT_TYPES : List String := ["text", "search", "email"]

/-- Set `EXCLUDED_INPUT_TYPES` (line 48). -/
def EXCLUDED_INPUT_TYPES : List String :=
  ["password", "number", "tel", "url", "date", "datetime-local",
   "time", "month", "week", "color", "range", "file", "hidden"]

/-- Set `EXCLUDED_INPUTMODES` (line 54). -/
def EXCLUDED_INPUTMODES : List String := ["numeric", "decimal", "tel", "none"]

/-- Set `EXCLUDED_AUTOCOMPLETE` (line 59). -/
def EXCLUDED_AUTOCOMPLETE : List String :=
  ["cc-number", "cc-exp", "cc-csc", "cc-type",
   "tel", "tel-national", "tel-country-code",
   "one-time-code", "postal-code", "bday"]

/-- Set `EXCLUDED_ROLES` (line 66). -/
def EXCLUDED_ROLES : List String :=
  ["spinbutton", "slider", "switch", "combobox", "listbox", "menu"]

/-- A DOM element as the classifier consults it: its tag, its `type`
IDL property (for inputs; `""` models a falsy value), the
`isContentEditable` / `disabled` / `readOnly` IDL flags, its own
attribute map, and the attribute maps of its ancestors strictly below
`document.documentElement`, nearest first (the chain
`getInheritedAttr` walks). -/
structure ElemNode where
  tagName : String
  typeProp : String
  isContentEditable : Bool
  disabled : Bool
  readOnly : Bool
  attrs : List (String × String)
  ancestorAttrs : List (List (String × String))
deriving DecidableEq, Repr

/-- Operation `node.getAttribute(name)` on an attribute map (`null` becomes `none`). -/
def getAttribute (attrs : List (String × String)) (name : String) : Option String :=
  match attrs.find? (fun p => p.1 == name) with
  | some p => some p.2
  | none => none

/-- The walk inside `getInheritedAttr` (lines 133–146): return the
nearest explicitly-set value, lowercased; absence everywhere is `none`. -/
def inheritedLookup : List (List (String × String)) → String → Option String
  | [], _ => none
  | m :: rest, n =>
    match getAttribute m n with
    | some v => some (jsToLower v)
    | none => inheritedLookup rest n

/-- Function `getInheritedAttr(el, attrName)` (lines 133–146): check the element
itself, then its ancestors up to (excluding) the document root. -/
def getInheritedAttr (el : ElemNode) (attrName : String) : Option String :=
  inheritedLookup (el.attrs :: el.ancestorAttrs) attrName

/-- Steps 3–8 of `shouldCheckElement` (lines 104–126), reached only
once the element passed the structural-eligibility step. -/
def shouldCheckEligible (el : ElemNode) : Decision :=
  if el.disabled then ⟨false, "element is disabled"⟩
  else if el.readOnly then ⟨false, "element is readonly"⟩
  else if getAttribute el.attrs "aria-disabled" = some "true" then
    ⟨false, "aria-disabled=\"true\""⟩
  else if getAttribute el.attrs "aria-readonly" = some "true" then
    ⟨false, "aria-readonly=\"true\""⟩
  else if getInheritedAttr el "spellcheck" = some "false" then
    ⟨false, "spellcheck=\"false\""⟩
  else
    let inputmode := (match getAttribute el.attrs "inputmode" with
      | some v => v
      | none => "") |> jsToLower
    if EXCLUDED_INPUTMODES.contains inputmode then
      ⟨false, "inputmode=\"" ++ inputmode ++ "\" excluded"⟩
    else
      let autocomplete := (match getAttribute el.attrs "autocomplete" with
        | some v => v
        | none => "") |> jsToLower
      if EXCLUDED_AUTOCOMPLETE.contains autocomplete then
        ⟨false, "autocomplete=\"" ++ autocomplete ++ "\" excluded"⟩
      else
        let role := (match getAttribute el.attrs "role" with
          | some v => v
          | none => "") |> jsToLower
        if EXCLUDED_ROLES.contains role then
          ⟨false, "role=\"" ++ role ++ "\" excluded"⟩
        else ⟨true, "eligible"⟩

/-- Function `shouldCheckElement(el)` (lines 77–127). A `none` argument models a
null element. -/
def shouldCheckElement : Option ElemNode → Decision
  | none => ⟨false, "null element"⟩
  | some el =>
    let correctly := getInheritedAttr el "data-correctly"
    if correctly = some "false" then ⟨false, "data-correctly=\"false\""⟩
    else if correctly = some "true" then ⟨true, "data-correctly=\"true\" (forced)"⟩
    else if el.tagName = "TEXTAREA" then shouldCheckEligible el
    else if el.tagName = "INPUT" then
      let ty := (if el.typeProp = "" then "text" else el.typeProp) |> jsToLower
      if PROSE_INPUT_TYPES.contains ty then shouldCheckEligible el
      else if EXCLUDED_INPUT_TYPES.contains ty then
        ⟨false, "input type=\"" ++ ty ++ "\" excluded"⟩
      else ⟨false, "not an editable prose element"⟩
    else if el.isContentEditable then shouldCheckEligible el
    else ⟨false, "not an editable prose element"⟩

/-! ### Tooltip placement (`positionTooltip`, lines 283–355) -/

/-- A `getBoundingClientRect` box. -/
structure DomRect where
  top : Rat
  left : Rat
  width : Rat
  height : Rat
deriving DecidableEq, Repr

/-- Derived `rect.bottom`. -/
def DomRect.bottom (r : DomRect) : Rat := r.top + r.height

/-- Derived `rect.right`. -/
def DomRect.rightEdge (r : DomRect) : Rat := r.left + r.width

/-- Constant `TOOLTIP_GAP` (line 280). -/
def TOOLTIP_GAP : Rat := 8

/-- Constant `VIEWPORT_PADDING` (line 281). -/
def VIEWPORT_PADDING : Rat := 10

/-- The geometry `positionTooltip` resolves: the internal placement
label, the final `top`/`left` style values, and the arrow offset. -/
structure TooltipPos where
  placement : String
  top : Rat
  left : Rat
  arrowOffset : Rat
deriving DecidableEq, Repr

/-- Function `positionTooltip(tooltip, element)` (lines 283–355) as a pure
function of the anchor box, tooltip box, viewport size, and scroll
offsets. -/
def positionTooltip (elRect : DomRect) (tipW tipH vpW vpH scrollX scrollY : Rat) :
    TooltipPos :=
  let spaceBelow := vpH - elRect.bottom
  let spaceAbove := elRect.top
  let pt :=
    if spaceBelow ≥ tipH + TOOLTIP_GAP + VIEWPORT_PADDING then
      ("below", elRect.bottom + scrollY + TOOLTIP_GAP)
    else if spaceAbove ≥ tipH + TOOLTIP_GAP + VIEWPORT_PADDING then
      ("above", elRect.top + scrollY - tipH - TOOLTIP_GAP)
    else if spaceBelow ≥ spaceAbove then
      ("below-clamped", elRect.bottom + scrollY + TOOLTIP_GAP)
    else
      ("above-clamped", elRect.top + scrollY - tipH - TOOLTIP_GAP)
  let left0 := elRect.left + scrollX
  let left1 :=
    if left0 + tipW > scrollX + vpW - VIEWPORT_PADDING then
      scrollX + vpW - tipW - VIEWPORT_PADDING
    else left0
  let left2 := if left1 < scrollX + VIEWPORT_PADDING then scrollX + VIEWPORT_PADDING else left1
  let minTop := scrollY + VIEWPORT_PADDING
  let maxTop := scrollY + vpH - tipH - VIEWPORT_PADDING
  let top1 := max minTop (min pt.2 maxTop)
  let elCenterX := elRect.left + scrollX + elRect.width / 2
  let arrowOffset := max 20 (min (elCenterX - left2) (tipW - 20))
  ⟨pt.1, top1, left2, arrowOffset⟩

/-! ### Session state machine

The process-wide mutable session of the content script: the debounce
timer (carrying the element its callback closed over), `activeElement`,
`dismissedElement`, `lastLoggedElement`, and the `applyingCorrection`
re-entrancy guard. The machine is parametrised by the element type `E`
(DOM node identity), the classifier (`shouldCheckElement` composed over
the concrete DOM) and the host resolver (`resolveEditableHost`). -/

/-- The mutable module-level session variables (lines 37–42, 507). -/
structure SessionState (E : Type) where
  debounceTimer : Option E
  activeElement : Option E
  dismissedElement : Option E
  lastLoggedElement : Option E
  applyingCorrection : Bool
deriving DecidableEq, Repr

/-- Constant `MIN_TEXT_LENGTH` (line 35). -/
def MIN_TEXT_LENGTH : Nat := 10

/-- What one invocation of `checkGrammar` does up to the point of
sending (or not sending) a request: suppressed by a dismissal marker
(line 463), silently skipped because the trimmed text is short
(line 469), or a request carrying the text it read (line 480). -/
inductive CheckOutcome (E : Type) where
  | suppressed (el : E)
  | tooShort (el : E) (text : List Char)
  | requested (el : E) (text : List Char)
deriving DecidableEq, Repr

/-- The entry conditions of `checkGrammar(element)` (lines 462–483):
the dismissal test precedes the text read, and the trimmed-length test
precedes the request. -/
def checkGrammarOutcome {E : Type} [DecidableEq E]
    (dismissed : Option E) (el : E) (text : List Char) : CheckOutcome E :=
  if dismissed = some el then CheckOutcome.suppressed el
  else if (jsTrim text).length < MIN_TEXT_LENGTH then CheckOutcome.tooShort el text
  else CheckOutcome.requested el text

/-- An event delivered to the content script: a (possibly synthetic)
`input` event with its target, the debounce timer elapsing, or a
`focusout` event (`toTooltip` records whether `event.relatedTarget`
lies inside the tooltip). -/
inductive Event (E : Type) where
  | input (raw : E)
  | fire
  | focusOut (raw : E) (toTooltip : Bool)
deriving DecidableEq, Repr

section Machine

variable {E : Type} [DecidableEq E] (classify : E → Decision) (resolve : E → E)

/-- Handler `handleInput(event)` (lines 509–550): re-entrancy guard, host
resolution, classification, first-typing logging, dismissal lifting,
active-element tracking, and (re-)arming of the debounce timer whose
callback closes over the resolved element. -/
def handleInput (st : SessionState E) (raw : E) : SessionState E :=
  if st.applyingCorrection = true then st
  else
    let el := resolve raw
    let decision := classify el
    if decision.check = false then st
    else
      let st1 :=
        if st.lastLoggedElement = some el then st
        else { st with lastLoggedElement := some el }
      let st2 :=
        if st1.dismissedElement = some el then { st1 with dismissedElement := none }
        else st1
      { st2 with activeElement := some el, debounceTimer := some el }

/-- One step of the session machine. `textNow` is the live text of each
element at this instant (`getTextFromElement`). The second component is
the `checkGrammar` invocation the step performs, if any. -/
def step (textNow : E → List Char) (st : SessionState E) :
    Event E → SessionState E × Option (CheckOutcome E)
  | Event.input raw => (handleInput classify resolve st raw, none)
  | Event.fire =>
    match st.debounceTimer with
    | none => (st, none)
    | some el =>
      let st1 := { st with debounceTimer := none }
      (st1, some (checkGrammarOutcome st1.dismissedElement el (textNow el)))
  | Event.focusOut raw toTooltip =>
    if toTooltip then (st, none)
    else
      let el := resolve raw
      if (classify el).check = false then (st, none)
      else
        let st1 := { st with debounceTimer := none }
        if (jsTrim (textNow el)).length < MIN_TEXT_LENGTH then (st1, none)
        else
          let st2 := { st1 with activeElement := some el }
          (st2, some (checkGrammarOutcome st2.dismissedElement el (textNow el)))

/-- Run the machine over a timed trace of events; `textAt i` is the
live text environment when the event at position `i` is processed. -/
def runTrace (textAt : Nat → E → List Char) (st : SessionState E) (i : Nat) :
    List (Event E) → SessionState E × List (Option (CheckOutcome E))
  | [] => (st, [])
  | ev :: rest =>
    let p := step classify resolve (textAt i) st ev
    let q := runTrace textAt p.1 (i + 1) rest
    (q.1, p.2 :: q.2)

end Machine

/-- The correction request (element, text) a check outcome sends to the
background page, if any. -/
def requestOf {E : Type} : Option (CheckOutcome E) → Option (E × List Char)
  | some (CheckOutcome.requested el t) => some (el, t)
  | _ => none

/-! ### Indicator lifecycle of `checkGrammar` (lines 462–505) -/

/-- The indicator / tooltip actions `checkGrammar` performs. -/
inductive UIAction where
  | showInd
  | removeInd
  | showTip (n : Nat)
deriving DecidableEq, Repr

/-- The response the `CHECK_GRAMMAR` message produces: a successful
response (whose `data.changes` may be absent), an unsuccessful
response, or a rejected message promise. -/
inductive GResponse where
  | ok (changes : Option Nat)
  | err (msg : String)
  | thrown (msg : String)
deriving DecidableEq, Repr

/-- The sequence of indicator/tooltip actions one `checkGrammar`
invocation performs (lines 462–505): nothing when suppressed or short;
otherwise the indicator is shown, then removed after the response
settles, then the tooltip is shown when issues were found. `GResponse.ok`
carries `response.data.changes?.length`. -/
def checkGrammarTrace {E : Type} [DecidableEq E]
    (dismissed : Option E) (el : E) (text : List Char) (resp : GResponse) :
    List UIAction :=
  if dismissed = some el then []
  else if (jsTrim text).length < MIN_TEXT_LENGTH then []
  else
    UIAction.showInd ::
      (match resp with
       | GResponse.thrown _ => [UIAction.removeInd]
       | GResponse.err _ => [UIAction.removeInd]
       | GResponse.ok changes =>
         let count := match changes with | none => 0 | some n => n
         UIAction.removeInd :: (if count > 0 then [UIAction.showTip count] else []))

/-! ### Diff applier (`acceptSingleCorrection` / `acceptCorrections`,
lines 357–408) -/

/-- A `Change` object of a `CorrectionResult`. -/
structure Change where
  original : List Char
  replacement : List Char
  explanation : List Char
deriving DecidableEq, Repr

/-- A `CorrectionResult`: the corrected text and the ordered change
sequence. -/
structure Correction where
  corrected : List Char
  changes : List Change
deriving DecidableEq, Repr

/-- The state the diff applier touches: the active element's text
(`none` models a null `activeElement`), `currentCorrection`, and
whether the tooltip is visible. -/
structure ApplierState where
  activeText : Option (List Char)
  currentCorrection : Option Correction
  tooltipVisible : Bool
deriving DecidableEq, Repr

/-- Function `acceptSingleCorrection(index)` (lines 366–394): bail out on a null
active element, a null current correction, or a missing change; else
replace the first occurrence in the live text, write it back, splice
the change out, update `corrected`, and hide the tooltip once the
sequence is empty (`hideTooltip` also nulls `currentCorrection`). -/
def acceptSingleCorrection (st : ApplierState) (index : Nat) : ApplierState :=
  match st.activeText, st.currentCorrection with
  | some text, some corr =>
    match corr.changes[index]? with
    | none => st
    | some change =>
      let updatedText := jsReplace text change.original change.replacement
      let remaining := corr.changes.eraseIdx index
      if remaining.length = 0 then
        { activeText := some updatedText, currentCorrection := none,
          tooltipVisible := false }
      else
        { activeText := some updatedText,
          currentCorrection := some ⟨updatedText, remaining⟩,
          tooltipVisible := st.tooltipVisible }
  | _, _ => st

/-- Function `acceptCorrections()` (lines 396–408): fold the first-occurrence
replacement over every remaining change, write back once, then
`hideTooltip()` unconditionally. -/
def acceptCorrections (st : ApplierState) : ApplierState :=
  let st1 :=
    match st.activeText, st.currentCorrection with
    | some text, some corr =>
      if corr.changes.length > 0 then
        let folded := corr.changes.foldl
          (fun t (c : Change) => jsReplace t c.original c.replacement) text
        { st with activeText := some folded }
      else st
    | _, _ => st
  { st1 with currentCorrection := none, tooltipVisible := false }

/-! ### Lemmas about the text primitives -/

/-- A failed search means no occurrence at any index. -/
theorem firstMatch_eq_none {pat s : List Char} (h : firstMatch pat s = none) :
    ∀ i, ¬ OccursAt pat s i := by
  induction s with
  | nil =>
    intro i hocc
    rw [OccursAt, List.drop_nil] at hocc
    simp only [firstMatch] at h
    rw [hocc] at h
    simp at h
  | cons c rest ih =>
    intro i hocc
    simp only [firstMatch] at h
    by_cases hm : matchPre pat (c :: rest) = true
    · rw [if_pos hm] at h; exact Option.noConfusion h
    · rw [if_neg hm] at h
      have hrest : firstMatch pat rest = none := by
        cases hfm : firstMatch pat rest with
        | none => rfl
        | some k => rw [hfm] at h; simp at h
      cases i with
      | zero => rw [OccursAt, List.drop_zero] at hocc; exact hm hocc
      | succ i =>
        rw [OccursAt, List.drop_succ_cons] at hocc
        exact ih hrest i hocc

/-- A successful search returns the first occurrence: it occurs there,
and no earlier index is an occurrence. -/
theorem firstMatch_eq_some {pat s : List Char} {i : Nat} (h : firstMatch pat s = some i) :
    OccursAt pat s i ∧ ∀ j, j < i → ¬ OccursAt pat s j := by
  induction s generalizing i with
  | nil =>
    simp only [firstMatch] at h
    by_cases hm : matchPre pat [] = true
    · rw [if_pos hm] at h
      obtain rfl : (0 : Nat) = i := Option.some.inj h
      exact ⟨hm, fun j hj => absurd hj (Nat.not_lt_zero j)⟩
    · rw [if_neg hm] at h; exact Option.noConfusion h
  | cons c rest ih =>
    simp only [firstMatch] at h
    by_cases hm : matchPre pat (c :: rest) = true
    · rw [if_pos hm] at h
      obtain rfl : (0 : Nat) = i := Option.some.inj h
      exact ⟨hm, fun j hj => absurd hj (Nat.not_lt_zero j)⟩
    · rw [if_neg hm] at h
      obtain ⟨k, hk, rfl⟩ := Option.map_eq_some'.mp h
      obtain ⟨h1, h2⟩ := ih hk
      refine ⟨by rwa [OccursAt, List.drop_succ_cons], ?_⟩
      intro j hj hocc
      cases j with
      | zero => rw [OccursAt, List.drop_zero] at hocc; exact hm hocc
      | succ j =>
        rw [OccursAt, List.drop_succ_cons] at hocc
        exact h2 j (Nat.lt_of_succ_lt_succ hj) hocc

/-- When the replacement contains no dollar sign, `GetSubstitution`
leaves it unchanged. -/
theorem getSubstitution_no_dollar_aux (m b a : List Char) :
    ∀ (n : Nat) (repl : List Char), repl.length ≤ n → '$' ∉ repl →
      getSubstitution m b a repl = repl := by
  intro n
  induction n with
  | zero =>
    intro repl hlen _
    have he : repl = [] := List.length_eq_zero.mp (Nat.le_zero.mp hlen)
    subst he; rfl
  | succ n ih =>
    intro repl hlen hmem
    match repl with
    | [] => rfl
    | [c] => rfl
    | c :: d :: rest =>
      have hc : ¬ (c = '$') := by
        intro hcc
        exact hmem (hcc ▸ List.mem_cons_self c (d :: rest))
      rw [getSubstitution, if_neg hc]
      have htail : getSubstitution m b a (d :: rest) = d :: rest := by
        refine ih (d :: rest) ?_ (fun hm => hmem (List.mem_cons_of_mem c hm))
        simp only [List.length_cons] at hlen ⊢
        omega
      rw [htail]

/-- When the replacement contains no dollar sign, `GetSubstitution`
leaves it unchanged (wrapper). -/
theorem getSubstitution_no_dollar (m b a repl : List Char) (h : '$' ∉ repl) :
    getSubstitution m b a repl = repl :=
  getSubstitution_no_dollar_aux m b a repl.length repl le_rfl h

/-- Claim C1 (amended): a single accepted change substitutes exactly
the first occurrence of `original` in the live text — occurrences after
the first are untouched and an absent `original` leaves the text
unchanged — and the replacement fragment appears in the result
character for character provided it contains no dollar sign (JavaScript
`String.replace` expands `$`-escape sequences in the replacement). -/
theorem firstOccurrenceSubstitution (s pat repl : List Char) :
    ((∀ i, ¬ OccursAt pat s i) → jsReplace s pat repl = s) ∧
    (∀ i, OccursAt pat s i → (∀ j, j < i → ¬ OccursAt pat s j) → '$' ∉ repl →
      jsReplace s pat repl = s.take i ++ repl ++ s.drop (i + pat.length)) := by
  constructor
  · intro hno
    cases hfm : firstMatch pat s with
    | none => simp only [jsReplace, hfm]
    | some k => exact absurd (firstMatch_eq_some hfm).1 (hno k)
  · intro i hi hmin hd
    cases hfm : firstMatch pat s with
    | none => exact absurd hi (firstMatch_eq_none hfm i)
    | some k =>
      obtain ⟨hk, hkmin⟩ := firstMatch_eq_some hfm
      obtain rfl : i = k := by
        rcases Nat.lt_trichotomy i k with h | h | h
        · exact absurd hi (hkmin i h)
        · exact h
        · exact absurd hk (hmin k h)
      simp only [jsReplace, hfm]
      rw [getSubstitution_no_dollar _ _ _ _ hd]

/-- Witness for the amended C1 theorem: in `"xaxa"`, accepting
`"a" → "YZ"` rewrites only the first `"a"`. -/
theorem firstOccurrenceSubstitution_witness :
    jsReplace ['x', 'a', 'x', 'a'] ['a'] ['Y', 'Z'] = ['x', 'Y', 'Z', 'x', 'a'] := by
  have h := (firstOccurrenceSubstitution ['x', 'a', 'x', 'a'] ['a'] ['Y', 'Z']).2 1
    (by decide)
    (by
      intro j hj
      obtain rfl : j = 0 := Nat.lt_one_iff.mp hj
      decide)
    (by decide)
  exact h.trans (by decide)

/-- Counterexample to claim C1 as stated: accepting the change
`"a" → "$&$&"` on live text `"ab"` does not insert the replacement
character for character — `String.replace` expands each `$&` to the
matched fragment, producing `"aab"` instead of `"$&$&b"`. -/
theorem substitutionDollarEscapeCounterexample :
    jsReplace ['a', 'b'] ['a'] ['$', '&', '$', '&'] = ['a', 'a', 'b'] ∧
    (['a', 'a', 'b'] : List Char) ≠ ['$', '&', '$', '&', 'b'] := by decide

/-! ### Classifier theorems -/

/-- Claim C2: whatever the element's kind, input type, disabled or
read-only flags, aria flags, spellcheck, inputmode, autocomplete and
role, an inherited `data-correctly` override of `"true"` forces
`check = true` and an override of `"false"` forces `check = false`. -/
theorem overrideAttributeDominance (el : ElemNode) :
    (getInheritedAttr el "data-correctly" = some "true" →
      (shouldCheckElement (some el)).check = true) ∧
    (getInheritedAttr el "data-correctly" = some "false" →
      (shouldCheckElement (some el)).check = false) := by
  constructor
  · intro h
    simp [shouldCheckElement, h]
  · intro h
    simp [shouldCheckElement, h]

/-- Witness for C2: a disabled, read-only `DIV` with
`data-correctly="true"` is checked; an otherwise perfectly eligible
`TEXTAREA` below a `data-correctly="false"` ancestor is not. -/
theorem overrideAttributeDominance_witness :
    (shouldCheckElement (some ⟨"DIV", "", false, true, true,
        [("data-correctly", "true")], []⟩)).check = true ∧
    (shouldCheckElement (some ⟨"TEXTAREA", "", false, false, false,
        [], [[("data-correctly", "false")]]⟩)).check = false :=
  ⟨(overrideAttributeDominance ⟨"DIV", "", false, true, true,
      [("data-correctly", "true")], []⟩).1 (by decide),
   (overrideAttributeDominance ⟨"TEXTAREA", "", false, false, false,
      [], [[("data-correctly", "false")]]⟩).2 (by decide)⟩

/-! ### Placement theorem -/

/-- Claim C8: for anchor `{top 500, left 100, width 200, height 30}`,
tooltip `300 × 150`, viewport `800 × 600`, zero scroll, gap 8 and
padding 10, the placement resolves to `"above"` with final
`top = 342` (and `left = 100`, arrow offset 100): space below is
`70 < 168`, space above is `500 ≥ 168`, and the final vertical clamp
into `[10, 440]` leaves 342 unchanged. -/
theorem placementExampleAboveAt342 :
    positionTooltip ⟨500, 100, 200, 30⟩ 300 150 800 600 0 0 =
      ⟨"above", 342, 100, 100⟩ := by
  unfold positionTooltip
  norm_num [DomRect.bottom, TOOLTIP_GAP, VIEWPORT_PADDING]

/-! ### Session state-machine lemmas -/

section MachineLemmas

variable {E : Type} [DecidableEq E] (classify : E → Decision) (resolve : E → E)

/-- A qualifying input event on an eligible element, outside the
re-entrancy guard, produces a fully determined session state: the
debounce timer is (re-)armed for the resolved element, the element
becomes active and last-logged, and a dismissal marker pointing at it
is lifted. -/
theorem handleInput_eligible (st : SessionState E) (raw : E)
    (hguard : st.applyingCorrection = false)
    (hcheck : (classify (resolve raw)).check = true) :
    handleInput classify resolve st raw =
      { debounceTimer := some (resolve raw),
        activeElement := some (resolve raw),
        dismissedElement :=
          if st.dismissedElement = some (resolve raw) then none else st.dismissedElement,
        lastLoggedElement := some (resolve raw),
        applyingCorrection := false } := by
  by_cases hl : st.lastLoggedElement = some (resolve raw) <;>
    by_cases hd : st.dismissedElement = some (resolve raw) <;>
      simp [handleInput, hguard, hcheck, hl, hd]

/-- The state reached after one qualifying input event is a fixed point
of further qualifying input events on the same target. -/
theorem handleInput_fixed (st : SessionState E) (raw : E)
    (hguard : st.applyingCorrection = false)
    (hcheck : (classify (resolve raw)).check = true) :
    handleInput classify resolve (handleInput classify resolve st raw) raw =
      handleInput classify resolve st raw := by
  rw [handleInput_eligible classify resolve st raw hguard hcheck]
  rw [handleInput_eligible classify resolve _ raw rfl hcheck]
  have hne : (if st.dismissedElement = some (resolve raw) then none
      else st.dismissedElement) ≠ some (resolve raw) := by
    split
    · exact fun hc => Option.noConfusion hc
    · assumption
  simp [hne]

/-- Running any number of further qualifying inputs on the same target
from a fixed-point state leaves the state unchanged and fires nothing. -/
theorem runTrace_replicate_input (textAt : Nat → E → List Char) (raw : E)
    (st : SessionState E) (hfix : handleInput classify resolve st raw = st) :
    ∀ (k i : Nat),
      runTrace classify resolve textAt st i (List.replicate k (Event.input raw)) =
        (st, List.replicate k none) := by
  intro k
  induction k with
  | zero => intro i; rfl
  | succ k ih =>
    intro i
    simp only [List.replicate_succ, runTrace, step, hfix, ih (i + 1)]

/-- From a state that is a fixed point of further inputs on `raw` and
whose timer is armed for the resolved element, `k` more coalesced
inputs followed by the timer expiry fire exactly one check, reading the
text at the expiry position. -/
theorem runTrace_inputs_then_fire (textAt : Nat → E → List Char) (raw : E)
    (st : SessionState E)
    (hfix : handleInput classify resolve st raw = st)
    (htimer : st.debounceTimer = some (resolve raw)) :
    ∀ (k i : Nat),
      runTrace classify resolve textAt st i
          (List.replicate k (Event.input raw) ++ [Event.fire]) =
        ({ st with debounceTimer := none },
          List.replicate k none ++
            [some (checkGrammarOutcome st.dismissedElement (resolve raw)
              (textAt (i + k) (resolve raw)))]) := by
  intro k
  induction k with
  | zero =>
    intro i
    simp only [List.replicate, List.nil_append, runTrace, step, htimer, Nat.add_zero]
  | succ k ih =>
    intro i
    have hstep : runTrace classify resolve textAt st i
        (List.replicate (k + 1) (Event.input raw) ++ [Event.fire]) =
        ((runTrace classify resolve textAt st (i + 1)
            (List.replicate k (Event.input raw) ++ [Event.fire])).1,
          none :: (runTrace classify resolve textAt st (i + 1)
            (List.replicate k (Event.input raw) ++ [Event.fire])).2) := by
      simp only [List.replicate_succ, List.cons_append, runTrace, step, hfix,
        List.append_eq, Nat.zero_add]
    rw [hstep, ih (i + 1)]
    have harith : i + 1 + k = i + (k + 1) := by omega
    rw [harith]
    simp [List.replicate_succ]

end MachineLemmas

/-! ### Temporal claim theorems -/

/-- Claim C3: `N ≥ 1` qualifying input events on the same eligible
element, each arriving before the pending timer elapses, produce
exactly one fired check — at the timer expiry — and that check reads
the element's live text at fire time (position `N` of the trace), not
the text present when any timer was armed. The fired check is a request
(or the silent short-text skip) on the resolved element with exactly
that text. -/
theorem debounceCoalescing {E : Type} [DecidableEq E]
    (classify : E → Decision) (resolve : E → E)
    (textAt : Nat → E → List Char) (st : SessionState E) (raw : E) (N : Nat)
    (hN : 1 ≤ N) (hguard : st.applyingCorrection = false)
    (hcheck : (classify (resolve raw)).check = true) :
    (runTrace classify resolve textAt st 0
        (List.replicate N (Event.input raw) ++ [Event.fire])).2 =
      List.replicate N (none : Option (CheckOutcome E)) ++
        [some (if (jsTrim (textAt N (resolve raw))).length < MIN_TEXT_LENGTH
               then CheckOutcome.tooShort (resolve raw) (textAt N (resolve raw))
               else CheckOutcome.requested (resolve raw) (textAt N (resolve raw)))] := by
  obtain ⟨k, rfl⟩ : ∃ k, N = k + 1 := ⟨N - 1, (Nat.succ_pred_eq_of_pos hN).symm⟩
  have h1 := handleInput_eligible classify resolve st raw hguard hcheck
  have hfix := handleInput_fixed classify resolve st raw hguard hcheck
  have htimer : (handleInput classify resolve st raw).debounceTimer = some (resolve raw) := by
    rw [h1]
  have hdism : (handleInput classify resolve st raw).dismissedElement ≠ some (resolve raw) := by
    rw [h1]
    simp only
    split
    · exact fun hc => Option.noConfusion hc
    · assumption
  -- unroll the first input event, then run the remaining k coalesced
  -- inputs and the fire from the fixed-point state
  have hstep : runTrace classify resolve textAt st 0
      (List.replicate (k + 1) (Event.input raw) ++ [Event.fire]) =
      ((runTrace classify resolve textAt (handleInput classify resolve st raw) 1
          (List.replicate k (Event.input raw) ++ [Event.fire])).1,
        none :: (runTrace classify resolve textAt (handleInput classify resolve st raw) 1
          (List.replicate k (Event.input raw) ++ [Event.fire])).2) := by
    simp only [List.replicate_succ, List.cons_append, runTrace, step,
      List.append_eq, Nat.zero_add]
  rw [hstep, runTrace_inputs_then_fire classify resolve textAt raw _ hfix htimer k 1]
  have harith : 1 + k = k + 1 := by omega
  rw [harith]
  simp only [checkGrammarOutcome, if_neg hdism, List.replicate_succ, List.cons_append]

/-- Witness for C3: from a fresh session, two rapid inputs on element
`0` followed by the timer expiry fire exactly one check, reading the
12-character text present at fire time. -/
theorem debounceCoalescing_witness :
    (runTrace (fun _ => Decision.mk true "eligible") (id : Nat → Nat)
        (fun _ _ => List.replicate 12 'a')
        (SessionState.mk none none none none false) 0
        (List.replicate 2 (Event.input 0) ++ [Event.fire])).2 =
      List.replicate 2 (none : Option (CheckOutcome Nat)) ++
        [some (CheckOutcome.requested 0 (List.replicate 12 'a'))] := by
  have h := debounceCoalescing (fun _ => Decision.mk true "eligible") (id : Nat → Nat)
    (fun _ _ => List.replicate 12 'a') (SessionState.mk none none none none false) 0 2
    (by decide) rfl rfl
  exact h.trans (by decide)

/-- Claim C4: while the dismissal marker points at an element, neither
a debounce-fire check nor a focus-loss check on that element issues a
request; the first qualifying input event on that same element clears
the marker, and that very event is not suppressed — it proceeds through
normal scheduling and arms the debounce timer. -/
theorem dismissThenEdit {E : Type} [DecidableEq E]
    (classify : E → Decision) (resolve : E → E) (textNow : E → List Char)
    (st : SessionState E) (raw : E)
    (hdism : st.dismissedElement = some (resolve raw))
    (hguard : st.applyingCorrection = false)
    (hcheck : (classify (resolve raw)).check = true) :
    (st.debounceTimer = some (resolve raw) →
      requestOf (step classify resolve textNow st Event.fire).2 = none) ∧
    (∀ toTooltip, requestOf (step classify resolve textNow st
        (Event.focusOut raw toTooltip)).2 = none) ∧
    (handleInput classify resolve st raw).dismissedElement = none ∧
    (handleInput classify resolve st raw).debounceTimer = some (resolve raw) := by
  refine ⟨?_, ?_, ?_, ?_⟩
  · intro htimer
    simp [step, htimer, checkGrammarOutcome, hdism, requestOf]
  · intro toTooltip
    cases toTooltip with
    | true => simp [step, requestOf]
    | false =>
      simp only [step]
      split
      · rfl
      · split
        · rfl
        · split
          · rfl
          · simp [checkGrammarOutcome, hdism, requestOf]
  · rw [handleInput_eligible classify resolve st raw hguard hcheck]
    simp [hdism]
  · rw [handleInput_eligible classify resolve st raw hguard hcheck]

/-- Witness for C4: with element `0` dismissed and its timer armed, the
fire and focus-out paths issue no request, and a fresh input on it
clears the marker and re-arms the timer. -/
theorem dismissThenEdit_witness :
    (requestOf (step (fun _ => Decision.mk true "eligible") (id : Nat → Nat)
        (fun _ => List.replicate 12 'a')
        (SessionState.mk (some 0) (some 0) (some 0) (some 0) false) Event.fire).2 = none) ∧
    ((handleInput (fun _ => Decision.mk true "eligible") (id : Nat → Nat)
        (SessionState.mk (some 0) (some 0) (some 0) (some 0) false) 0).dismissedElement
      = none) := by
  have h := dismissThenEdit (fun _ => Decision.mk true "eligible") (id : Nat → Nat)
    (fun _ => List.replicate 12 'a')
    (SessionState.mk (some 0) (some 0) (some 0) (some 0) false) 0 rfl rfl rfl
  exact ⟨h.1 rfl, h.2.2.1⟩

/-- Claim C5: an input event delivered while the `applyingCorrection`
re-entrancy guard is set — i.e. the synchronous input event dispatched
by the diff applier's own write — leaves the session state entirely
unchanged: the debounce timer is not re-armed and `activeElement`,
`lastLoggedElement` and `dismissedElement` keep their values; no check
is invoked. -/
theorem selfWriteSuppression {E : Type} [DecidableEq E]
    (classify : E → Decision) (resolve : E → E) (textNow : E → List Char)
    (st : SessionState E) (raw : E)
    (hguard : st.applyingCorrection = true) :
    step classify resolve textNow st (Event.input raw) = (st, none) := by
  simp [step, handleInput, hguard]

/-- Witness for C5: a synthetic input event under the guard is a
complete no-op on a concrete session. -/
theorem selfWriteSuppression_witness :
    step (fun _ => Decision.mk true "eligible") (id : Nat → Nat)
        (fun _ => List.replicate 12 'a')
        (SessionState.mk none (some 4) (some 5) (some 6) true) (Event.input 7) =
      (SessionState.mk none (some 4) (some 5) (some 6) true, none) :=
  selfWriteSuppression (fun _ => Decision.mk true "eligible") (id : Nat → Nat)
    (fun _ => List.replicate 12 'a')
    (SessionState.mk none (some 4) (some 5) (some 6) true) 7 rfl

/-- Claim C6: every check that shows the transient "checking" indicator
removes it exactly once, on each of its exit paths — success with a
non-empty change sequence, success with an empty (or absent) change
sequence, and failure (unsuccessful response or rejected request). -/
theorem indicatorRemovedOnce {E : Type} [DecidableEq E]
    (dismissed : Option E) (el : E) (text : List Char) (resp : GResponse)
    (hshow : UIAction.showInd ∈ checkGrammarTrace dismissed el text resp) :
    (checkGrammarTrace dismissed el text resp).count UIAction.removeInd = 1 := by
  by_cases h1 : dismissed = some el
  · simp [checkGrammarTrace, h1] at hshow
  · by_cases h2 : (jsTrim text).length < MIN_TEXT_LENGTH
    · simp [checkGrammarTrace, h1, h2] at hshow
    · cases resp with
      | thrown m => simp [checkGrammarTrace, h1, h2]
      | err m => simp [checkGrammarTrace, h1, h2]
      | ok changes =>
        simp only [checkGrammarTrace, h1, h2, if_false]
        split <;> simp [List.count_cons]

/-- Witness for C6: an indicator shown for a successful two-change
response is removed exactly once. -/
theorem indicatorRemovedOnce_witness :
    (checkGrammarTrace (none : Option Nat) 0 (List.replicate 12 'a')
        (GResponse.ok (some 2))).count UIAction.removeInd = 1 :=
  indicatorRemovedOnce (none : Option Nat) 0 (List.replicate 12 'a')
    (GResponse.ok (some 2)) (by decide)

/-- Claim C7: when an element's text, after trimming, is shorter than
`MIN_TEXT_LENGTH` (10), no correction request is issued — identically
on the debounce-fire path and on the focus-loss path. -/
theorem minLengthThresholdSkip {E : Type} [DecidableEq E]
    (classify : E → Decision) (resolve : E → E) (textNow : E → List Char)
    (st : SessionState E) (el : E)
    (hshort : (jsTrim (textNow el)).length < MIN_TEXT_LENGTH)
    (htimer : st.debounceTimer = some el) :
    requestOf (step classify resolve textNow st Event.fire).2 = none ∧
    ∀ raw toTooltip, resolve raw = el →
      requestOf (step classify resolve textNow st (Event.focusOut raw toTooltip)).2 = none := by
  constructor
  · simp only [step, htimer]
    by_cases hd : st.dismissedElement = some el
    · simp [checkGrammarOutcome, hd, requestOf]
    · simp [checkGrammarOutcome, hd, hshort, requestOf]
  · intro raw toTooltip hres
    cases toTooltip with
    | true => simp [step, requestOf]
    | false =>
      simp only [step, hres]
      split
      · rfl
      · split
        · rfl
        · rfl

/-- Witness for C7: a 3-character text fires no request from either
path. -/
theorem minLengthThresholdSkip_witness :
    requestOf (step (fun _ => Decision.mk true "eligible") (id : Nat → Nat)
        (fun _ => ['a', 'b', 'c'])
        (SessionState.mk (some 0) none none none false) Event.fire).2 = none ∧
    requestOf (step (fun _ => Decision.mk true "eligible") (id : Nat → Nat)
        (fun _ => ['a', 'b', 'c'])
        (SessionState.mk (some 0) none none none false) (Event.focusOut 0 false)).2 = none := by
  have h := minLengthThresholdSkip (fun _ => Decision.mk true "eligible") (id : Nat → Nat)
    (fun _ => ['a', 'b', 'c']) (SessionState.mk (some 0) none none none false) 0
    (by decide) rfl
  exact ⟨h.1, h.2 0 false rfl⟩

/-! ### Diff-applier theorems -/

/-- Claim C9: accepting a change at an in-range index shrinks
`currentCorrection.changes` by exactly one, keeps the remaining changes
in their original relative order (the remaining sequence is a sublist
of the old one), and — when the accepted change was the last one —
auto-hides the tooltip (which also clears `currentCorrection`). -/
theorem acceptOneShrinksByOne (st : ApplierState) (index : Nat)
    (text : List Char) (corr : Correction)
    (htext : st.activeText = some text)
    (hcorr : st.currentCorrection = some corr)
    (hidx : index < corr.changes.length) :
    (corr.changes.length = 1 →
      (acceptSingleCorrection st index).currentCorrection = none ∧
      (acceptSingleCorrection st index).tooltipVisible = false) ∧
    (1 < corr.changes.length →
      ∃ corr2, (acceptSingleCorrection st index).currentCorrection = some corr2 ∧
        corr2.changes.length + 1 = corr.changes.length ∧
        List.Sublist corr2.changes corr.changes) := by
  have hget : corr.changes[index]? = some (corr.changes.get ⟨index, hidx⟩) := by
    simp [List.getElem?_eq_getElem hidx]
  have herase : (corr.changes.eraseIdx index).length = corr.changes.length - 1 :=
    List.length_eraseIdx_of_lt hidx
  constructor
  · intro hlen
    have hzero : (corr.changes.eraseIdx index).length = 0 := by omega
    simp [acceptSingleCorrection, htext, hcorr, hget, hzero]
  · intro hlen
    have hnonzero : ¬ (corr.changes.eraseIdx index).length = 0 := by omega
    refine ⟨⟨jsReplace text (corr.changes.get ⟨index, hidx⟩).original
        (corr.changes.get ⟨index, hidx⟩).replacement, corr.changes.eraseIdx index⟩, ?_, ?_, ?_⟩
    · simp [acceptSingleCorrection, htext, hcorr, hget, hnonzero]
    · simp only [herase]; omega
    · exact List.eraseIdx_sublist corr.changes index

/-- Witness for C9: accepting index 0 of a two-change correction leaves
one change, in order; accepting the only change of a one-change
correction hides the tooltip and clears the correction. -/
theorem acceptOneShrinksByOne_witness :
    (∃ corr2, (acceptSingleCorrection ⟨some ['x', 'a'], some ⟨['x', 'a'],
        [⟨['a'], ['b'], []⟩, ⟨['x'], ['y'], []⟩]⟩, true⟩ 0).currentCorrection = some corr2 ∧
      corr2.changes.length + 1 =
        ([⟨['a'], ['b'], []⟩, ⟨['x'], ['y'], []⟩] : List Change).length ∧
      List.Sublist corr2.changes [⟨['a'], ['b'], []⟩, ⟨['x'], ['y'], []⟩]) ∧
    ((acceptSingleCorrection ⟨some ['x', 'a'], some ⟨['x', 'a'],
        [⟨['a'], ['b'], []⟩]⟩, true⟩ 0).currentCorrection = none) := by
  constructor
  · exact (acceptOneShrinksByOne ⟨some ['x', 'a'], some ⟨['x', 'a'],
      [⟨['a'], ['b'], []⟩, ⟨['x'], ['y'], []⟩]⟩, true⟩ 0 ['x', 'a']
      ⟨['x', 'a'], [⟨['a'], ['b'], []⟩, ⟨['x'], ['y'], []⟩]⟩ rfl rfl
      (by decide)).2 (by decide)
  · exact ((acceptOneShrinksByOne ⟨some ['x', 'a'], some ⟨['x', 'a'],
      [⟨['a'], ['b'], []⟩]⟩, true⟩ 0 ['x', 'a']
      ⟨['x', 'a'], [⟨['a'], ['b'], []⟩]⟩ rfl rfl (by decide)).1 (by decide)).1

/-- Claim C10: with no active element, no current correction, or an
out-of-range index, `acceptSingleCorrection` is a complete no-op: the
element's text, the change sequence, and the tooltip visibility are all
unchanged and no write occurs. -/
theorem acceptOneNoOp (st : ApplierState) (index : Nat)
    (h : st.activeText = none ∨ st.currentCorrection = none ∨
      ∃ corr, st.currentCorrection = some corr ∧ corr.changes.length ≤ index) :
    acceptSingleCorrection st index = st := by
  rcases h with h | h | ⟨corr, hc, hlen⟩
  · cases h2 : st.currentCorrection <;> simp [acceptSingleCorrection, h, h2]
  · cases h2 : st.activeText <;> simp [acceptSingleCorrection, h, h2]
  · cases h2 : st.activeText with
    | none => simp [acceptSingleCorrection, h2]
    | some text =>
      have hnone : corr.changes[index]? = none := List.getElem?_eq_none_iff.mpr hlen
      simp [acceptSingleCorrection, h2, hc, hnone]

/-- Witness for C10: an out-of-range index and a missing correction
both leave a concrete applier state untouched. -/
theorem acceptOneNoOp_witness :
    acceptSingleCorrection ⟨some ['x', 'a'], some ⟨['x', 'a'], [⟨['a'], ['b'], []⟩]⟩, true⟩ 5 =
      ⟨some ['x', 'a'], some ⟨['x', 'a'], [⟨['a'], ['b'], []⟩]⟩, true⟩ ∧
    acceptSingleCorrection ⟨some ['x', 'a'], none, true⟩ 0 = ⟨some ['x', 'a'], none, true⟩ :=
  ⟨acceptOneNoOp _ 5 (Or.inr (Or.inr ⟨⟨['x', 'a'], [⟨['a'], ['b'], []⟩]⟩, rfl, by decide⟩)),
   acceptOneNoOp _ 0 (Or.inr (Or.inl rfl))⟩

end Correctly
